import Mathlib

/-!
# Verification of the execution core (orders, positions, execution engine, bars)

Shallow embedding of the repository's execution core.

* `Order` (constructor preconditions, `Order.apply`, `Order.is_complete`) is
  translated directly from `src/inv_trader/model/order.py`, the one entity
  implementation present in the source tree.  Python `None` becomes `Option`,
  `Decimal` becomes `ℚ`, `datetime` becomes `ℤ`, and each `raise` in the
  constructor becomes an `Except.error` carrying the Python exception class.
* The `Position` aggregate, the execution database, the execution engine and
  the bar aggregation pipeline have no implementation under `src/` (only their
  unit tests); those definitions are modelled from the specification, as
  marked in their doc comments.
-/

set_option maxHeartbeats 1000000

namespace InvTrader

/-- Order side, from `inv_trader.model.enums.OrderSide`. -/
inductive OrderSide
  | BUY
  | SELL
  deriving DecidableEq, Repr

/-- Order type, from `inv_trader.model.enums.OrderType`
(the five members used by the order module). -/
inductive OrderType
  | MARKET
  | LIMIT
  | STOP_MARKET
  | STOP_LIMIT
  | MIT
  deriving DecidableEq, Repr

/-- Time in force, from `inv_trader.model.enums.TimeInForce`. -/
inductive TimeInForce
  | DAY
  | GTC
  | IOC
  | FOK
  | GTD
  deriving DecidableEq, Repr

/-- Order status, from `inv_trader.model.enums.OrderStatus`. -/
inductive OrderStatus
  | INITIALIZED
  | SUBMITTED
  | ACCEPTED
  | REJECTED
  | WORKING
  | CANCELLED
  | EXPIRED
  | FILLED
  | PARTIALLY_FILLED
  deriving DecidableEq, Repr

/-- A symbol, `(code, venue)`, from `inv_trader.model.objects.Symbol`. -/
structure Symbol where
  code : String
  venue : String
  deriving DecidableEq, Repr

/-- The Python exception raised by a failed precondition in
`Order.__init__`: either `ValueError` or `TypeError`, with its message
(we keep a short stable prefix of the source's f-string). -/
inductive PyError
  | valueError (msg : String)
  | typeError (msg : String)
  deriving DecidableEq, Repr

/-- `orders_requiring_prices` from `src/inv_trader/model/order.py` line 20. -/
def orders_requiring_prices : List OrderType :=
  [OrderType.LIMIT, OrderType.STOP_MARKET, OrderType.STOP_LIMIT, OrderType.MIT]

/-- The order entity, from `src/inv_trader/model/order.py` (`Order.__init__`
field assignments, lines 88-100).  Field names follow the public properties. -/
structure Order where
  symbol : Symbol
  id : String
  label : String
  side : OrderSide
  order_type : OrderType
  quantity : Int
  timestamp : Int
  time_in_force : Option TimeInForce
  expire_time : Option Int
  price : Option ℚ
  filled_quantity : Int
  average_price : ℚ
  status : OrderStatus
  deriving DecidableEq, Repr

/-- `Order.__init__` precondition checks and construction, from
`src/inv_trader/model/order.py` lines 53-100, with each check embedded in
source order.  Checks that are vacuous under the embedding's types are noted:

* the `None`/`isinstance` checks on `symbol`, `identifier`, `label` and
  `timestamp` cannot fire because those arguments are non-optional here;
* line 74 checks `isinstance(time_in_force, datetime.datetime)`; no
  `TimeInForce` enum member is a `datetime`, so the check fires for every
  non-`None` `time_in_force` and is embedded as such;
* line 77 (`time_in_force is TimeInForce.GTD and time_in_force is None`)
  is kept verbatim; its condition is unsatisfiable;
* line 85's `isinstance(price, Decimal)` cannot fire because `price` is
  typed `Option ℚ`. -/
def Order.init (symbol : Symbol) (identifier : String) (label : String)
    (order_side : OrderSide) (order_type : OrderType) (quantity : Int)
    (timestamp : Int) (price : Option ℚ := none)
    (time_in_force : Option TimeInForce := none)
    (expire_time : Option Int := none) : Except PyError Order :=
  if quantity ≤ 0 then
    .error (.valueError "The quantity must be positive.")
  else if time_in_force.isSome then
    -- line 74: `isinstance(time_in_force, datetime.datetime)` is False for
    -- every TimeInForce member, so any non-None value raises TypeError.
    .error (.typeError "The time_in_force must be of type datetime.")
  else if time_in_force = some TimeInForce.GTD ∧ time_in_force = none then
    .error (.valueError "The time_in_force cannot be None for GTD orders.")
  else if time_in_force = some TimeInForce.GTD ∧ expire_time = none then
    .error (.valueError "The expire_time cannot be None for GTD orders.")
  else if order_type ∉ orders_requiring_prices ∧ price ≠ none then
    .error (.valueError "orders cannot have a price.")
  else if order_type ∈ orders_requiring_prices ∧ price = none then
    .error (.valueError "The price cannot be None.")
  else
    .ok { symbol := symbol
          id := identifier
          label := label
          side := order_side
          order_type := order_type
          quantity := quantity
          timestamp := timestamp
          time_in_force := time_in_force
          expire_time := expire_time
          price := price
          filled_quantity := 0
          average_price := 0
          status := OrderStatus.INITIALIZED }

/-- `Order.is_complete`, from `src/inv_trader/model/order.py` lines 180-187. -/
def Order.is_complete (o : Order) : Bool :=
  o.status = OrderStatus.CANCELLED ∨ o.status = OrderStatus.EXPIRED
    ∨ o.status = OrderStatus.FILLED ∨ o.status = OrderStatus.REJECTED

/-- The concrete class of an order event (the module dispatches on
`isinstance`), from `inv_trader.model.events`. -/
inductive OrderEventKind
  | submitted
  | accepted
  | rejected
  | working
  | cancelled
  | cancelReject
  | expired
  | filled
  | partiallyFilled
  deriving DecidableEq, Repr

/-- An order event.  The event classes live in `inv_trader.model.events`,
which is not under `src/`; the payload fields (`order_id`, and for fill
events `side`, `filled_quantity`, `average_price`, `timestamp`) are modelled
from the spec (§2 event list, §4.2, §4.3).  `Order.apply` below — which is
from the source — reads only `kind`. -/
structure OrderEvent where
  kind : OrderEventKind
  order_id : String
  side : OrderSide
  filled_quantity : ℚ
  average_price : ℚ
  timestamp : Int
  deriving DecidableEq, Repr

/-- `Order.apply`, from `src/inv_trader/model/order.py` lines 216-239: a
chain of `isinstance` dispatches, each assigning `self._order_status` only
(`OrderCancelReject` is a `pass`).  No other attribute is read or written,
and no precondition is checked. -/
def Order.apply (o : Order) (order_event : OrderEvent) : Order :=
  match order_event.kind with
  | .submitted => { o with status := OrderStatus.SUBMITTED }
  | .accepted => { o with status := OrderStatus.ACCEPTED }
  | .rejected => { o with status := OrderStatus.REJECTED }
  | .working => { o with status := OrderStatus.WORKING }
  | .cancelled => { o with status := OrderStatus.CANCELLED }
  | .cancelReject => o
  | .expired => { o with status := OrderStatus.EXPIRED }
  | .filled => { o with status := OrderStatus.FILLED }
  | .partiallyFilled => { o with status := OrderStatus.PARTIALLY_FILLED }

/-- The status that an event kind writes in `Order.apply`
(`none` for `OrderCancelReject`, which leaves the order untouched). -/
def OrderEventKind.targetStatus : OrderEventKind → Option OrderStatus
  | .submitted => some OrderStatus.SUBMITTED
  | .accepted => some OrderStatus.ACCEPTED
  | .rejected => some OrderStatus.REJECTED
  | .working => some OrderStatus.WORKING
  | .cancelled => some OrderStatus.CANCELLED
  | .cancelReject => none
  | .expired => some OrderStatus.EXPIRED
  | .filled => some OrderStatus.FILLED
  | .partiallyFilled => some OrderStatus.PARTIALLY_FILLED

/-- For a terminal status, the event kind whose application produced it
(spec §4.2 terminal set). -/
def OrderStatus.terminalKind : OrderStatus → Option OrderEventKind
  | OrderStatus.REJECTED => some .rejected
  | OrderStatus.CANCELLED => some .cancelled
  | OrderStatus.EXPIRED => some .expired
  | OrderStatus.FILLED => some .filled
  | _ => none

/-- Market position of a net quantity: LONG, SHORT or FLAT (spec §3, §4.3). -/
inductive MarketPosition
  | LONG
  | SHORT
  | FLAT
  deriving DecidableEq, Repr

/-- The sign of a signed net quantity mapped to a market position
(spec §4.3 rule 4). -/
def MarketPosition.ofNet (net : ℚ) : MarketPosition :=
  if 0 < net then .LONG else if net < 0 then .SHORT else .FLAT

/-- `+1` for BUY, `-1` for SELL (spec §4.3 rule 1). -/
def OrderSide.dir : OrderSide → ℚ
  | .BUY => 1
  | .SELL => -1

/-- The opposite order side. -/
def OrderSide.opposite : OrderSide → OrderSide
  | .BUY => .SELL
  | .SELL => .BUY

/-- Modelled from the spec: the `Position` aggregate (spec §3 "Position" and
§4.3); `nautilus_trader.model.position` is not under `src/`, only its unit
tests are.  `relative_quantity` is the signed net quantity (`quantity` in the
spec is its absolute value); `closed_quantity` is the spec's `closed_so_far`;
the event history and id lists are kept as a count (no claim reads them). -/
structure Position where
  id : String
  from_order_id : String
  entry_direction : OrderSide
  relative_quantity : ℚ
  peak_quantity : ℚ
  market_position : MarketPosition
  opened_time : Int
  closed_time : Option Int
  average_open_price : ℚ
  average_close_price : ℚ
  closed_quantity : ℚ
  realized_points : ℚ
  realized_return : ℚ
  realized_pnl : ℚ
  event_count : Nat
  deriving DecidableEq, Repr

namespace Position

/-- Modelled from the spec: a position is created from the first fill
(spec §4.3 and §3 "A position is created from the first fill"):
the net quantity is the fill's signed quantity, the average open price is the
fill price, `opened_time` is set on this first fill only. -/
def fromFill (position_id : String) (e : OrderEvent) : Position :=
  let delta : ℚ := e.side.dir * e.filled_quantity
  { id := position_id
    from_order_id := e.order_id
    entry_direction := e.side
    relative_quantity := delta
    peak_quantity := |delta|
    market_position := MarketPosition.ofNet delta
    opened_time := e.timestamp
    closed_time := if delta = 0 then some e.timestamp else none
    average_open_price := e.average_price
    average_close_price := 0
    closed_quantity := 0
    realized_points := 0
    realized_return := 0
    realized_pnl := 0
    event_count := 1 }

/-- Modelled from the spec: `Position.apply(fill)` (spec §4.3 rules 1-5);
`nautilus_trader.model.position` is not under `src/`.  The fill's quantity and
price are the event's `filled_quantity` and `average_price`. -/
def applyFill (p : Position) (e : OrderEvent) : Position :=
  let qty : ℚ := e.filled_quantity
  let fill_price : ℚ := e.average_price
  let delta : ℚ := e.side.dir * qty
  let net : ℚ := p.relative_quantity
  let new_net : ℚ := net + delta
  let p' :=
    if net = 0 ∨ (0 < net ∧ 0 < delta) ∨ (net < 0 ∧ delta < 0) then
      -- rule 2: opening leg
      { p with
        relative_quantity := new_net
        average_open_price := (|net| * p.average_open_price + qty * fill_price) / (|net| + qty)
        peak_quantity := max p.peak_quantity |new_net| }
    else
      -- rule 3: reducing leg
      let closed : ℚ := min |net| qty
      let avg_close : ℚ :=
        (p.closed_quantity * p.average_close_price + closed * fill_price)
          / (p.closed_quantity + closed)
      let closed_so_far : ℚ := p.closed_quantity + closed
      let points : ℚ :=
        if p.entry_direction = OrderSide.BUY then avg_close - p.average_open_price
        else p.average_open_price - avg_close
      let base :=
        { p with
          relative_quantity := new_net
          average_close_price := avg_close
          closed_quantity := closed_so_far
          realized_points := points
          realized_return := points / p.average_open_price
          realized_pnl := points * closed_so_far }
      if |delta| > |net| then
        -- the remainder flips the position: opening-leg formulas re-applied
        -- to the excess with the average open price reset to the fill price
        { base with
          average_open_price := fill_price
          peak_quantity := max p.peak_quantity |new_net| }
      else
        base
  -- rule 4: market position from the sign of the net quantity; on reaching
  -- FLAT the closed time is the fill's timestamp
  { p' with
    market_position := MarketPosition.ofNet new_net
    closed_time := if new_net = 0 then some e.timestamp else p.closed_time
    event_count := p.event_count + 1 }

/-- Applies a list of fills in arrival order (spec §4.3: positions do not
reorder fills). -/
def applyFills (p : Position) (fills : List OrderEvent) : Position :=
  fills.foldl applyFill p

/-- Modelled from the spec: `unrealized_points` at a quote tick, given as its
bid and ask (spec §4.3 "Unrealized metrics"). -/
def unrealized_points (p : Position) (bid ask : ℚ) : ℚ :=
  match p.market_position with
  | .LONG => bid - p.average_open_price
  | .SHORT => p.average_open_price - ask
  | .FLAT => 0

/-- Modelled from the spec: `unrealized_pnl` at a quote tick
(spec §4.3: unrealized points times the absolute quantity). -/
def unrealized_pnl (p : Position) (bid ask : ℚ) : ℚ :=
  p.unrealized_points bid ask * |p.relative_quantity|

end Position

/-- First-match association-list lookup (keys are identifier strings). -/
def lookupKey {β : Type} (k : String) : List (String × β) → Option β
  | [] => none
  | (k', v) :: rest => if k' = k then some v else lookupKey k rest

/-- Inserts an element into a list if it is not already present. -/
def insertId (k : String) (l : List String) : List String :=
  if k ∈ l then l else k :: l

/-- Modelled from the spec: the in-memory execution database state
(spec §4.4); `nautilus_trader.common.execution.InMemoryExecutionDatabase` is
not under `src/`, only its unit tests are.  Entities are held in
association lists, the per-strategy and working/completed/open/closed
indices as id lists (spec §4.4 "Indices maintained"). -/
structure ExecDb where
  orders : List (String × Order)
  index_order_position : List (String × String)
  index_order_strategy : List (String × String)
  index_orders_working : List String
  index_orders_completed : List String
  positions : List (String × Position)
  index_position_strategy : List (String × String)
  index_positions_open : List String
  index_positions_closed : List String
  strategy_ids : List String
  deriving DecidableEq, Repr

namespace ExecDb

/-- A freshly constructed, empty database. -/
def init : ExecDb :=
  { orders := []
    index_order_position := []
    index_order_strategy := []
    index_orders_working := []
    index_orders_completed := []
    positions := []
    index_position_strategy := []
    index_positions_open := []
    index_positions_closed := []
    strategy_ids := [] }

/-- Modelled from the spec: `add_order(order, strategy_id, position_id)`
(spec §4.4): fails if the order id exists or is already indexed to a
different position; otherwise records the three-way index. -/
def add_order (db : ExecDb) (o : Order) (strategy_id position_id : String) :
    Except String ExecDb :=
  if (lookupKey o.id db.orders).isSome then
    .error "DuplicateEntity: order id already exists"
  else if h : (lookupKey o.id db.index_order_position).isSome then
    if (lookupKey o.id db.index_order_position).get (by simpa using h) = position_id then
      .ok { db with
              orders := (o.id, o) :: db.orders
              index_order_strategy := (o.id, strategy_id) :: db.index_order_strategy }
    else
      .error "DuplicateEntity: order indexed to a different position"
  else
    .ok { db with
            orders := (o.id, o) :: db.orders
            index_order_position := (o.id, position_id) :: db.index_order_position
            index_order_strategy := (o.id, strategy_id) :: db.index_order_strategy }

/-- Modelled from the spec: `update_order(order)` (spec §4.4): rehomes the
order between the working and completed indices based on its current status
(working = status ∈ {WORKING, PARTIALLY_FILLED}, completed = terminal). -/
def update_order (db : ExecDb) (o : Order) : ExecDb :=
  if (lookupKey o.id db.orders).isNone then db
  else
    let orders' := db.orders.map fun kv => if kv.1 = o.id then (o.id, o) else kv
    if o.status = OrderStatus.WORKING ∨ o.status = OrderStatus.PARTIALLY_FILLED then
      { db with
          orders := orders'
          index_orders_working := insertId o.id db.index_orders_working
          index_orders_completed := db.index_orders_completed.erase o.id }
    else if o.is_complete then
      { db with
          orders := orders'
          index_orders_working := db.index_orders_working.erase o.id
          index_orders_completed := insertId o.id db.index_orders_completed }
    else
      { db with orders := orders' }

/-- Modelled from the spec: `add_position(position, strategy_id)`
(spec §4.4): fails if the position exists; otherwise indexes it into the
open set. -/
def add_position (db : ExecDb) (p : Position) (strategy_id : String) :
    Except String ExecDb :=
  if (lookupKey p.id db.positions).isSome then
    .error "DuplicateEntity: position id already exists"
  else
    .ok { db with
            positions := (p.id, p) :: db.positions
            index_position_strategy := (p.id, strategy_id) :: db.index_position_strategy
            index_positions_open := insertId p.id db.index_positions_open }

/-- Modelled from the spec: `update_position(position)` (spec §4.4): rehomes
the position between the open and closed indices based on its market
position (open = not FLAT, closed = FLAT). -/
def update_position (db : ExecDb) (p : Position) : ExecDb :=
  if (lookupKey p.id db.positions).isNone then db
  else
    let positions' := db.positions.map fun kv => if kv.1 = p.id then (p.id, p) else kv
    if p.market_position = MarketPosition.FLAT then
      { db with
          positions := positions'
          index_positions_open := db.index_positions_open.erase p.id
          index_positions_closed := insertId p.id db.index_positions_closed }
    else
      { db with
          positions := positions'
          index_positions_open := insertId p.id db.index_positions_open
          index_positions_closed := db.index_positions_closed.erase p.id }

/-- Modelled from the spec: `update_strategy(strategy)` records the
strategy id (spec §4.4). -/
def update_strategy (db : ExecDb) (strategy_id : String) : ExecDb :=
  { db with strategy_ids := insertId strategy_id db.strategy_ids }

/-- Modelled from the spec: `delete_strategy(strategy)` removes the strategy
id only; orders and positions are retained (spec §4.4). -/
def delete_strategy (db : ExecDb) (strategy_id : String) : ExecDb :=
  { db with strategy_ids := db.strategy_ids.erase strategy_id }

/-- Modelled from the spec: `reset()` clears all indices and entities of the
in-memory store (spec §4.4). -/
def reset (_db : ExecDb) : ExecDb := init

-- Queries (spec §4.4: all total; missing keys return empty sets / none).

/-- `order_exists(order_id)`. -/
def order_exists (db : ExecDb) (order_id : String) : Bool :=
  (lookupKey order_id db.orders).isSome

/-- `get_order(order_id)`. -/
def get_order (db : ExecDb) (order_id : String) : Option Order :=
  lookupKey order_id db.orders

/-- `get_order_ids()`. -/
def get_order_ids (db : ExecDb) : List String :=
  db.orders.map Prod.fst

/-- `get_position_id(order_id)`: the position id indexed for the order. -/
def get_position_id (db : ExecDb) (order_id : String) : Option String :=
  lookupKey order_id db.index_order_position

/-- `position_indexed_for_order(order_id)`. -/
def position_indexed_for_order (db : ExecDb) (order_id : String) : Bool :=
  (db.get_position_id order_id).isSome

/-- `get_position(position_id)`. -/
def get_position (db : ExecDb) (position_id : String) : Option Position :=
  lookupKey position_id db.positions

/-- `position_exists(position_id)`. -/
def position_exists (db : ExecDb) (position_id : String) : Bool :=
  (db.get_position position_id).isSome

/-- `get_position_for_order(order_id)`. -/
def get_position_for_order (db : ExecDb) (order_id : String) : Option Position :=
  (db.get_position_id order_id).bind db.get_position

/-- `position_exists_for_order(order_id)`. -/
def position_exists_for_order (db : ExecDb) (order_id : String) : Bool :=
  (db.get_position_for_order order_id).isSome

/-- `get_position_ids()`. -/
def get_position_ids (db : ExecDb) : List String :=
  db.positions.map Prod.fst

/-- `get_positions(strategy_id)`: the positions recorded for a strategy. -/
def get_positions (db : ExecDb) (strategy_id : String) : List Position :=
  db.index_position_strategy.filterMap fun kv =>
    if kv.2 = strategy_id then db.get_position kv.1 else none

/-- `get_positions_open()`: ids in the global open index. -/
def get_positions_open_ids (db : ExecDb) : List String :=
  db.index_positions_open

/-- `get_positions_open(strategy_id)`: open position ids of a strategy. -/
def get_positions_open (db : ExecDb) (strategy_id : String) : List String :=
  db.index_positions_open.filter fun pid =>
    lookupKey pid db.index_position_strategy = some strategy_id

/-- `get_positions_closed(strategy_id)`: closed position ids of a strategy. -/
def get_positions_closed (db : ExecDb) (strategy_id : String) : List String :=
  db.index_positions_closed.filter fun pid =>
    lookupKey pid db.index_position_strategy = some strategy_id

/-- `is_position_open(position_id)`. -/
def is_position_open (db : ExecDb) (position_id : String) : Bool :=
  position_id ∈ db.index_positions_open

/-- `is_position_closed(position_id)`. -/
def is_position_closed (db : ExecDb) (position_id : String) : Bool :=
  position_id ∈ db.index_positions_closed

/-- `count_orders_total()`. -/
def count_orders_total (db : ExecDb) : Nat :=
  db.orders.length

/-- `count_positions_total()`. -/
def count_positions_total (db : ExecDb) : Nat :=
  db.positions.length

/-- `count_positions_open()`. -/
def count_positions_open (db : ExecDb) : Nat :=
  db.index_positions_open.length

/-- `count_positions_closed()`. -/
def count_positions_closed (db : ExecDb) : Nat :=
  db.index_positions_closed.length

/-- `get_strategy_ids()`. -/
def get_strategy_ids (db : ExecDb) : List String :=
  db.strategy_ids

end ExecDb

/-- Modelled from the spec: the execution engine state (spec §4.5);
`nautilus_trader.common.execution.ExecutionEngine` is not under `src/`, only
its unit tests are.  The engine owns the database and the map of registered
strategies (spec §9 "the map of strategy handles by id"; a handle is reduced
to the id). -/
structure ExecEngine where
  db : ExecDb
  registered : List String
  deriving DecidableEq, Repr

namespace ExecEngine

/-- A freshly constructed engine over an empty database. -/
def init : ExecEngine :=
  { db := ExecDb.init, registered := [] }

/-- Modelled from the spec: `register_strategy(strategy)` (spec §4.5). -/
def register_strategy (st : ExecEngine) (strategy_id : String) : ExecEngine :=
  { st with
      registered := insertId strategy_id st.registered
      db := st.db.update_strategy strategy_id }

/-- Modelled from the spec: `deregister_strategy(strategy)` (spec §4.5):
removes the strategy from the registered map; the database retains its
orders and positions (spec §4.4 `delete_strategy`). -/
def deregister_strategy (st : ExecEngine) (strategy_id : String) : ExecEngine :=
  { st with
      registered := st.registered.erase strategy_id
      db := st.db.delete_strategy strategy_id }

/-- `registered_strategies()`. -/
def registered_strategies (st : ExecEngine) : List String :=
  st.registered

/-- Modelled from the spec: command dispatch for `SubmitOrder` (spec §4.5
"Command dispatch" 1): record the order via `add_order` and forward to the
client; a database failure is logged and leaves the state unchanged. -/
def execute_submit_order (st : ExecEngine) (o : Order)
    (strategy_id position_id : String) : ExecEngine :=
  match st.db.add_order o strategy_id position_id with
  | .ok db' => { st with db := db' }
  | .error _ => st

/-- Whether an event kind is a fill (spec §4.5 "If the event is a fill"). -/
def isFillKind (k : OrderEventKind) : Bool :=
  k = OrderEventKind.filled ∨ k = OrderEventKind.partiallyFilled

/-- Modelled from the spec: `handle_event` for an order event (spec §4.5
"Event routing" 1): locate the order by the event's order id (unknown orders
are logged and dropped); apply the event to the order and update the
database; when the event is a fill, locate the position id via the
order→position index and either create the position from the fill
(`add_position`) or apply the fill to the existing position
(`update_position`). -/
def handle_order_event (st : ExecEngine) (e : OrderEvent) : ExecEngine :=
  match st.db.get_order e.order_id with
  | none => st
  | some o =>
    let o' := o.apply e
    let db1 := st.db.update_order o'
    if isFillKind e.kind then
      match db1.get_position_id e.order_id with
      | none => { st with db := db1 }
      | some pid =>
        match db1.get_position pid with
        | some p => { st with db := db1.update_position (p.applyFill e) }
        | none =>
          match lookupKey e.order_id db1.index_order_strategy with
          | none => { st with db := db1 }
          | some sid =>
            match db1.add_position (Position.fromFill pid e) sid with
            | .ok db2 => { st with db := db2 }
            | .error _ => { st with db := db1 }
    else
      { st with db := db1 }

/-- Modelled from the spec: `is_strategy_flat(strategy_id)` (spec §4.5):
a strategy is flat when it has no open positions (the open index holds
exactly the non-FLAT positions, spec §4.4). -/
def is_strategy_flat (st : ExecEngine) (strategy_id : String) : Bool :=
  (st.db.get_positions_open strategy_id).isEmpty

/-- Modelled from the spec: `is_flat()` (spec §4.5:
`is_flat() ⇔ ∀ s: is_strategy_flat(s)`, over the engine's registered
strategies). -/
def is_flat (st : ExecEngine) : Bool :=
  st.registered.all fun s => st.is_strategy_flat s

/-- Modelled from the spec: `reset()` (spec §4.5): the engine resets its
database but keeps its registered strategies (behaviour pinned by
`test_can_reset_execution_engine`). -/
def reset (st : ExecEngine) : ExecEngine :=
  { st with db := st.db.reset }

end ExecEngine

/-- The engine states reachable through the engine's public operations
(spec §4.5).  Fill events routed by venue adapters report a positive traded
quantity (spec §3 "Fill — an event reporting that some or all of an order's
quantity has been traded"). -/
inductive Reachable : ExecEngine → Prop
  | init : Reachable ExecEngine.init
  | register {st} (strategy_id : String) :
      Reachable st → Reachable (st.register_strategy strategy_id)
  | deregister {st} (strategy_id : String) :
      Reachable st → Reachable (st.deregister_strategy strategy_id)
  | submit {st} (o : Order) (strategy_id position_id : String) :
      Reachable st → Reachable (st.execute_submit_order o strategy_id position_id)
  | order_event {st} (e : OrderEvent) :
      Reachable st → (ExecEngine.isFillKind e.kind → 0 < e.filled_quantity) →
      Reachable (st.handle_order_event e)
  | reset {st} : Reachable st → Reachable st.reset

/-- Coherence of the database's position bookkeeping (spec §4.4 "Indices
maintained": open = not FLAT), an invariant of every reachable engine
state: the open index holds exactly the ids of non-FLAT stored positions,
without duplicates, and the position→strategy index is functional and only
names stored positions. -/
def DbPosInv (db : ExecDb) : Prop :=
  (∀ pid ∈ db.index_positions_open,
    ∃ p, lookupKey pid db.positions = some p
      ∧ p.market_position ≠ MarketPosition.FLAT)
  ∧ (∀ pid p, lookupKey pid db.positions = some p →
      p.market_position ≠ MarketPosition.FLAT → pid ∈ db.index_positions_open)
  ∧ db.index_positions_open.Nodup
  ∧ (∀ pid sid, (pid, sid) ∈ db.index_position_strategy →
      lookupKey pid db.index_position_strategy = some sid)
  ∧ (∀ pid sid, (pid, sid) ∈ db.index_position_strategy →
      (lookupKey pid db.positions).isSome = true)

/-- A fixed-precision price: an exact decimal value with its precision
(digits after the point), spec §3 "Price/Quantity/Money". -/
structure Price where
  value : ℚ
  precision : Nat
  deriving DecidableEq, Repr

/-- Which side of a quote tick drives a bar (spec §4.6, glossary). -/
inductive PriceType
  | BID
  | ASK
  | MID
  deriving DecidableEq, Repr

/-- A quote tick (spec §4.6, §8 scenario 5). -/
structure QuoteTick where
  symbol : Symbol
  bid : Price
  ask : Price
  bid_size : ℚ
  ask_size : ℚ
  timestamp : Int
  deriving DecidableEq, Repr

/-- Modelled from the spec: the price a tick contributes to a bar, by the
bar specification's price type (spec §4.6: BID/ASK use that side; MID is
`(bid+ask)/2` with precision `max(bid.prec, ask.prec)+1`). -/
def QuoteTick.extract_price (t : QuoteTick) : PriceType → Price
  | .BID => t.bid
  | .ASK => t.ask
  | .MID =>
      { value := (t.bid.value + t.ask.value) / 2
        precision := max t.bid.precision t.ask.precision + 1 }

/-- Modelled from the spec: the volume a tick contributes to a bar
(spec §4.6 "volume=sum of sizes"; for MID bars spec §8 scenario 5 directs
`use Σ(bid_size+ask_size)`, the rule being an open question of §9). -/
def QuoteTick.extract_volume (t : QuoteTick) : PriceType → ℚ
  | .BID => t.bid_size
  | .ASK => t.ask_size
  | .MID => t.bid_size + t.ask_size

/-- An OHLCV bar (spec §3 "Bar"). -/
structure Bar where
  open_price : Price
  high : Price
  low : Price
  close : Price
  volume : ℚ
  timestamp : Int
  deriving DecidableEq, Repr

/-- Modelled from the spec: the shared `BarBuilder` primitive (spec §4.6);
`nautilus_trader.common.market` is not under `src/`, only its unit tests
are.  It maintains a partial OHLCV bar over the ticks seen so far. -/
structure BarBuilder where
  price_type : PriceType
  use_previous_close : Bool
  bar_open : Option Price
  bar_high : Option Price
  bar_low : Option Price
  bar_close : Option Price
  volume : ℚ
  count : Nat
  last_update : Option Int
  deriving DecidableEq, Repr

namespace BarBuilder

/-- A fresh builder with no partial bar. -/
def mk0 (price_type : PriceType) (use_previous_close : Bool) : BarBuilder :=
  { price_type := price_type
    use_previous_close := use_previous_close
    bar_open := none
    bar_high := none
    bar_low := none
    bar_close := none
    volume := 0
    count := 0
    last_update := none }

/-- Modelled from the spec: `update(tick)` (spec §4.6): open is the first
tick price, high/low are the extrema, close the last price; the volume
accumulates the tick's contribution. -/
def update (b : BarBuilder) (t : QuoteTick) : BarBuilder :=
  let price := t.extract_price b.price_type
  { b with
      bar_open := match b.bar_open with
        | none => some price
        | some o => some o
      bar_high := match b.bar_high with
        | none => some price
        | some h => if h.value < price.value then some price else some h
      bar_low := match b.bar_low with
        | none => some price
        | some l => if price.value < l.value then some price else some l
      bar_close := some price
      volume := b.volume + t.extract_volume b.price_type
      count := b.count + 1
      last_update := some t.timestamp }

/-- Modelled from the spec: `build()` (spec §4.6): returns the current bar
and resets the builder, carrying the previous close forward when configured;
building with no current bar is an error (`none`). -/
def build (b : BarBuilder) : Option (Bar × BarBuilder) :=
  match b.bar_open, b.bar_high, b.bar_low, b.bar_close, b.last_update with
  | some o, some h, some l, some c, some ts =>
      let bar : Bar :=
        { open_price := o, high := h, low := l, close := c
          volume := b.volume, timestamp := ts }
      let carried : Option Price := if b.use_previous_close then some c else none
      some (bar,
        { b with
            bar_open := carried
            bar_high := carried
            bar_low := carried
            bar_close := carried
            volume := 0
            count := 0 })
  | _, _, _, _, _ => none

end BarBuilder

/-- Modelled from the spec: the `TickBarAggregator` (spec §4.6): a bar
boundary falls every `step` ticks; each completed bar is delivered to the
registered handler, modelled as the `bars` output list. -/
structure TickBarAggregator where
  step : Nat
  builder : BarBuilder
  bars : List Bar
  deriving DecidableEq, Repr

namespace TickBarAggregator

/-- A fresh aggregator for `step` ticks of the given price type. -/
def mk0 (step : Nat) (price_type : PriceType) : TickBarAggregator :=
  { step := step, builder := BarBuilder.mk0 price_type false, bars := [] }

/-- Modelled from the spec: `update(tick)`: feed the tick to the builder;
when the tick count reaches the step, build the bar and hand it to the
handler. -/
def update (a : TickBarAggregator) (t : QuoteTick) : TickBarAggregator :=
  let b := a.builder.update t
  if a.step ≤ b.count then
    match b.build with
    | some (bar, b') => { a with builder := b', bars := a.bars ++ [bar] }
    | none => { a with builder := b }
  else
    { a with builder := b }

/-- Updates with a list of ticks in order. -/
def updates (a : TickBarAggregator) (ticks : List QuoteTick) : TickBarAggregator :=
  ticks.foldl update a

end TickBarAggregator

/-! ## Concrete fixtures used by witnesses and counterexamples -/

/-- A market BUY order for 100,000 AUD/USD.FXCM, as `Order.__init__`
constructs it (all derived fields at their initial values). -/
def sampleOrder : Order :=
  { symbol := ⟨"AUD/USD", "FXCM"⟩
    id := "O-123456"
    label := "SCALPER-01"
    side := OrderSide.BUY
    order_type := OrderType.MARKET
    quantity := 100000
    timestamp := 0
    time_in_force := none
    expire_time := none
    price := none
    filled_quantity := 0
    average_price := 0
    status := OrderStatus.INITIALIZED }

/-- `sampleOrder` after a full fill transition. -/
def filledOrder : Order :=
  { sampleOrder with status := OrderStatus.FILLED }

/-- An `OrderFilled` event for `sampleOrder`: the whole quantity traded at
average price `3/2`. -/
def fillEvent : OrderEvent :=
  { kind := OrderEventKind.filled
    order_id := "O-123456"
    side := OrderSide.BUY
    filled_quantity := 100000
    average_price := 3 / 2
    timestamp := 5 }

/-- An `OrderPartiallyFilled` event for `sampleOrder`: 50,000 traded at
average price `2`. -/
def partialFillEvent : OrderEvent :=
  { kind := OrderEventKind.partiallyFilled
    order_id := "O-123456"
    side := OrderSide.BUY
    filled_quantity := 50000
    average_price := 2
    timestamp := 5 }

/-- An `OrderCancelled` event whose order id matches `sampleOrder`. -/
def cancelEvent : OrderEvent :=
  { kind := OrderEventKind.cancelled
    order_id := "O-123456"
    side := OrderSide.BUY
    filled_quantity := 0
    average_price := 0
    timestamp := 9 }

/-- An `OrderCancelled` event whose order id does NOT match `sampleOrder`. -/
def mismatchEvent : OrderEvent :=
  { kind := OrderEventKind.cancelled
    order_id := "O-OTHER"
    side := OrderSide.BUY
    filled_quantity := 0
    average_price := 0
    timestamp := 9 }

/-- The three quote ticks of the scenario: (bid, ask) =
(1.00001, 1.00004), (1.00002, 1.00005), (1.00000, 1.00003), precision 5,
bid and ask sizes 1, at the epoch. -/
def c9tick1 : QuoteTick :=
  ⟨⟨"AUD/USD", "FXCM"⟩, ⟨100001/100000, 5⟩, ⟨100004/100000, 5⟩, 1, 1, 0⟩

/-- Second scenario tick. -/
def c9tick2 : QuoteTick :=
  ⟨⟨"AUD/USD", "FXCM"⟩, ⟨100002/100000, 5⟩, ⟨100005/100000, 5⟩, 1, 1, 0⟩

/-- Third scenario tick. -/
def c9tick3 : QuoteTick :=
  ⟨⟨"AUD/USD", "FXCM"⟩, ⟨100000/100000, 5⟩, ⟨100003/100000, 5⟩, 1, 1, 0⟩

/-- The step-3 MID tick bar aggregator after the three scenario ticks. -/
def c9agg : TickBarAggregator :=
  (TickBarAggregator.mk0 3 PriceType.MID).updates [c9tick1, c9tick2, c9tick3]

/-- The sum of the quantities of a list of fill events. -/
def sumQty (l : List OrderEvent) : ℚ :=
  (l.map fun e => e.filled_quantity).sum

/-- The sum of `price · quantity` over a list of fill events. -/
def sumPQ (l : List OrderEvent) : ℚ :=
  (l.map fun e => e.average_price * e.filled_quantity).sum

/-- A concrete `OrderFilled` event with the given side, quantity, price and
timestamp. -/
def mkFillEvent (s : OrderSide) (q price : ℚ) (ts : Int) : OrderEvent :=
  { kind := OrderEventKind.filled
    order_id := "O-1"
    side := s
    filled_quantity := q
    average_price := price
    timestamp := ts }

/-- A position taken through a flip: SELL 1 @ 1, then BUY 2 @ 2 (closing the
short unit and opening one long unit), then SELL 1 @ 3 (closing it).  The
signed quantities sum to zero. -/
def c2flip : Position :=
  Position.applyFills (Position.fromFill "P-1" (mkFillEvent OrderSide.SELL 1 1 0))
    [mkFillEvent OrderSide.BUY 2 2 1, mkFillEvent OrderSide.SELL 1 3 2]

/-! ## C1: effect of fill events on an order -/

/-- C1 (counterexample): the claim "applying an OrderFilled event sets
filled_quantity equal to the order quantity and updates average_price from
the event; applying an OrderPartiallyFilled event updates filled_quantity
and average_price from the event" is false at a concrete order and fill:
`Order.apply` sets the status but leaves `filled_quantity` at `0 ≠ 100000`
and `average_price` at `0 ≠ 3/2` (and likewise for the partial fill). -/
theorem C1_counterexample :
    (sampleOrder.apply fillEvent).status = OrderStatus.FILLED
    ∧ sampleOrder.quantity = 100000
    ∧ fillEvent.average_price = 3 / 2
    ∧ (sampleOrder.apply fillEvent).filled_quantity = 0
    ∧ (sampleOrder.apply fillEvent).average_price = 0
    ∧ (sampleOrder.apply partialFillEvent).status = OrderStatus.PARTIALLY_FILLED
    ∧ partialFillEvent.filled_quantity = 50000
    ∧ (sampleOrder.apply partialFillEvent).filled_quantity = 0
    ∧ (sampleOrder.apply partialFillEvent).average_price = 0 :=
  ⟨rfl, rfl, rfl, rfl, rfl, rfl, rfl, rfl, rfl⟩

/-- C1 (amended): applying an `OrderFilled` event sets the status to FILLED
and applying an `OrderPartiallyFilled` event sets it to PARTIALLY_FILLED;
neither (nor any other event) modifies `filled_quantity` or `average_price`,
which keep their values (initially `0`): `Order.apply` writes only the
status. -/
theorem C1_fill_events_set_status_only (o : Order) (e : OrderEvent) :
    (e.kind = OrderEventKind.filled → (o.apply e).status = OrderStatus.FILLED)
    ∧ (e.kind = OrderEventKind.partiallyFilled →
        (o.apply e).status = OrderStatus.PARTIALLY_FILLED)
    ∧ (o.apply e).filled_quantity = o.filled_quantity
    ∧ (o.apply e).average_price = o.average_price := by
  refine ⟨?_, ?_, ?_, ?_⟩ <;> cases hk : e.kind <;> simp [Order.apply, hk]

/-- Witness for `C1_fill_events_set_status_only` at the concrete fixtures. -/
theorem C1_fill_events_set_status_only_witness :
    (sampleOrder.apply fillEvent).status = OrderStatus.FILLED
    ∧ (sampleOrder.apply partialFillEvent).status = OrderStatus.PARTIALLY_FILLED
    ∧ (sampleOrder.apply fillEvent).filled_quantity = sampleOrder.filled_quantity :=
  ⟨(C1_fill_events_set_status_only sampleOrder fillEvent).1 rfl,
   (C1_fill_events_set_status_only sampleOrder partialFillEvent).2.1 rfl,
   (C1_fill_events_set_status_only sampleOrder fillEvent).2.2.1⟩

/-! ## C3: events applied to a terminal order -/

/-- C3 (counterexample): the claim "applying an event of any other kind to a
terminal order is rejected, leaving the order's status unchanged" is false
at a concrete input: an `OrderCancelled` event applied to a FILLED (hence
terminal) order changes its status to CANCELLED. -/
theorem C3_counterexample :
    filledOrder.is_complete = true
    ∧ cancelEvent.kind ≠ OrderEventKind.filled
    ∧ (filledOrder.apply cancelEvent).status = OrderStatus.CANCELLED
    ∧ (filledOrder.apply cancelEvent).status ≠ filledOrder.status := by
  decide

/-- C3 (amended): applying to a terminal order an event of the same kind
that produced the terminal status leaves the order unchanged (idempotent);
but an event of any other kind is NOT rejected: `Order.apply` performs the
event's normal status transition unconditionally, whatever the current
status (`OrderCancelReject` remaining a no-op). -/
theorem C3_terminal_idempotent_not_guarded (o : Order) (e : OrderEvent) :
    (o.status.terminalKind = some e.kind → o.apply e = o)
    ∧ (∀ s, e.kind.targetStatus = some s → (o.apply e).status = s) := by
  constructor
  · intro h
    rcases o with ⟨sym, oid, lab, sd, ot, q, ts, tif, et, pr, fq, ap, st⟩
    cases st <;> cases hk : e.kind <;>
      simp_all [OrderStatus.terminalKind, Order.apply]
  · intro s hs
    cases hk : e.kind <;> simp_all [OrderEventKind.targetStatus, Order.apply]

/-- Witness for `C3_terminal_idempotent_not_guarded`: re-applying a fill to
a FILLED order leaves it unchanged, and a cancel event moves any order to
CANCELLED. -/
theorem C3_terminal_idempotent_not_guarded_witness :
    filledOrder.apply fillEvent = filledOrder
    ∧ (sampleOrder.apply cancelEvent).status = OrderStatus.CANCELLED :=
  ⟨(C3_terminal_idempotent_not_guarded filledOrder fillEvent).1 rfl,
   (C3_terminal_idempotent_not_guarded sampleOrder cancelEvent).2
     OrderStatus.CANCELLED rfl⟩

/-! ## C4: order-id mismatch in `Order.apply` -/

/-- C4 (counterexample): the claim "an event whose order id does not equal
the target order's id surfaces an invariant-violation error (the transition
is not silently applied)" is false at a concrete input: `Order.apply`
applies an `OrderCancelled` event with a foreign order id, mutating the
order's status to CANCELLED. -/
theorem C4_counterexample :
    mismatchEvent.order_id ≠ sampleOrder.id
    ∧ (sampleOrder.apply mismatchEvent).status = OrderStatus.CANCELLED
    ∧ sampleOrder.apply mismatchEvent ≠ sampleOrder := by
  decide

/-- C4 (amended): `Order.apply` performs no order-id check at all: the result
of applying an event never depends on the event's order id, so an event with
a mismatched id is applied exactly as a matching one, and no error is
surfaced. -/
theorem C4_apply_ignores_order_id (o : Order) (e : OrderEvent) :
    o.apply e = o.apply { e with order_id := o.id } := by
  cases hk : e.kind <;> simp [Order.apply, hk]

/-! ## C7: price requirement in the order constructor -/

/-- C7: the constructor's price validation, exactly as claimed: it fails
with `ValueError` (an invalid-argument error) when the type requires a price
(`LIMIT`, `STOP_MARKET`, `STOP_LIMIT`, `MIT`) and none is given, fails with
`ValueError` when the type is `MARKET` and a price is supplied, and
otherwise — the other arguments being valid: a positive quantity and (due to
the constructor's time-in-force type check) no time in force — the
construction succeeds. -/
theorem C7_price_requirement (symbol : Symbol) (identifier label : String)
    (side : OrderSide) (order_type : OrderType) (quantity timestamp : Int)
    (price : Option ℚ) (expire_time : Option Int) (hq : 0 < quantity) :
    (order_type ∈ orders_requiring_prices → price = none →
      Order.init symbol identifier label side order_type quantity timestamp
        price none expire_time
        = .error (.valueError "The price cannot be None."))
    ∧ (order_type = OrderType.MARKET → price ≠ none →
      Order.init symbol identifier label side order_type quantity timestamp
        price none expire_time
        = .error (.valueError "orders cannot have a price."))
    ∧ ((order_type ∈ orders_requiring_prices ∧ price ≠ none)
        ∨ (order_type = OrderType.MARKET ∧ price = none) →
      ∃ o, Order.init symbol identifier label side order_type quantity
        timestamp price none expire_time = .ok o) := by
  cases order_type <;> cases price <;>
    simp_all [Order.init, orders_requiring_prices, not_le.mpr hq]

/-- Witness for `C7_price_requirement`: a LIMIT order without a price and a
MARKET order with one are refused; a MARKET order without one constructs. -/
theorem C7_price_requirement_witness :
    (Order.init ⟨"AUD/USD", "FXCM"⟩ "O-1" "L" OrderSide.BUY OrderType.LIMIT
        100000 0 none none none
      = .error (.valueError "The price cannot be None."))
    ∧ (Order.init ⟨"AUD/USD", "FXCM"⟩ "O-1" "L" OrderSide.BUY OrderType.MARKET
        100000 0 (some 1) none none
      = .error (.valueError "orders cannot have a price."))
    ∧ ∃ o, Order.init ⟨"AUD/USD", "FXCM"⟩ "O-1" "L" OrderSide.BUY
        OrderType.MARKET 100000 0 none none none = .ok o :=
  ⟨(C7_price_requirement _ "O-1" "L" OrderSide.BUY OrderType.LIMIT 100000 0
      none none (by decide)).1 (by decide) rfl,
   (C7_price_requirement _ "O-1" "L" OrderSide.BUY OrderType.MARKET 100000 0
      (some 1) none (by decide)).2.1 rfl (by decide),
   (C7_price_requirement _ "O-1" "L" OrderSide.BUY OrderType.MARKET 100000 0
      none none (by decide)).2.2 (Or.inr ⟨rfl, rfl⟩)⟩

/-! ## C8: time-in-force validation in the order constructor -/

/-- C6: every query of the execution database is a total function; called
with a key that was never added the queries return `false`, `none` or the
empty set: `order_exists`, `get_order`, `get_position`, `position_exists`,
`get_position_id`, `position_indexed_for_order`, `get_position_for_order`,
`position_exists_for_order` on missing keys, and `get_strategy_ids` on a
fresh database. -/
theorem C6_queries_total_on_missing_keys (db : ExecDb)
    (order_id position_id : String)
    (ho : lookupKey order_id db.orders = none)
    (hi : lookupKey order_id db.index_order_position = none)
    (hp : lookupKey position_id db.positions = none) :
    db.order_exists order_id = false
    ∧ db.get_order order_id = none
    ∧ db.get_position position_id = none
    ∧ db.position_exists position_id = false
    ∧ db.get_position_id order_id = none
    ∧ db.position_indexed_for_order order_id = false
    ∧ db.get_position_for_order order_id = none
    ∧ db.position_exists_for_order order_id = false
    ∧ ExecDb.init.get_strategy_ids = [] := by
  simp [ExecDb.order_exists, ExecDb.get_order, ExecDb.get_position,
    ExecDb.position_exists, ExecDb.get_position_id,
    ExecDb.position_indexed_for_order, ExecDb.get_position_for_order,
    ExecDb.position_exists_for_order, ExecDb.get_strategy_ids, ExecDb.init,
    ho, hi, hp]

/-- Witness for `C6_queries_total_on_missing_keys` on a fresh database and
never-added keys. -/
theorem C6_queries_total_on_missing_keys_witness :
    ExecDb.init.order_exists "O-123456" = false
    ∧ ExecDb.init.get_order "O-123456" = none
    ∧ ExecDb.init.get_position "P-123456" = none
    ∧ ExecDb.init.position_exists "P-123456" = false
    ∧ ExecDb.init.get_position_id "O-123456" = none
    ∧ ExecDb.init.position_indexed_for_order "O-123456" = false
    ∧ ExecDb.init.get_position_for_order "O-123456" = none
    ∧ ExecDb.init.position_exists_for_order "O-123456" = false
    ∧ ExecDb.init.get_strategy_ids = [] := by
  have h := C6_queries_total_on_missing_keys ExecDb.init "O-123456" "P-123456"
    rfl rfl rfl
  exact ⟨h.1, h.2.1, h.2.2.1, h.2.2.2.1, h.2.2.2.2.1, h.2.2.2.2.2.1,
    h.2.2.2.2.2.2.1, h.2.2.2.2.2.2.2.1, h.2.2.2.2.2.2.2.2⟩

/-! ## C10: engine reset preserves strategy registrations -/

/-- C10: `ExecutionEngine.reset()` preserves the set of registered
strategies — every strategy id registered before the reset is still in
`registered_strategies()` afterwards — while the database reset it performs
clears all strategy ids, orders and positions. -/
theorem C10_engine_reset_preserves_registrations (st : ExecEngine)
    (s : String) (h : s ∈ st.registered_strategies) :
    s ∈ st.reset.registered_strategies
    ∧ st.reset.db.get_strategy_ids = []
    ∧ st.reset.db.count_orders_total = 0
    ∧ st.reset.db.count_positions_total = 0 := by
  refine ⟨?_, rfl, rfl, rfl⟩
  simpa [ExecEngine.reset, ExecEngine.registered_strategies] using h

/-- Witness for `C10_engine_reset_preserves_registrations`: an engine with
strategy `S1` registered keeps it across `reset()`. -/
theorem C10_engine_reset_preserves_registrations_witness :
    "S1" ∈ (ExecEngine.init.register_strategy "S1").reset.registered_strategies
    ∧ (ExecEngine.init.register_strategy "S1").reset.db.get_strategy_ids = [] :=
  ⟨(C10_engine_reset_preserves_registrations
      (ExecEngine.init.register_strategy "S1") "S1" (by decide)).1,
   (C10_engine_reset_preserves_registrations
      (ExecEngine.init.register_strategy "S1") "S1" (by decide)).2.1⟩

/-! ## C9: tick bar aggregation of three MID quote ticks -/

/-- C9 (counterexample): the claim's volume is wrong: the bar built from the
three ticks (bid and ask sizes all 1, MID price type, volume accumulated as
`Σ(bid_size + ask_size)` per spec §4.6/§8) carries volume `6`, not `7`. -/
theorem C9_counterexample :
    c9agg.bars.map Bar.volume = [6] ∧ ([6] : List ℚ) ≠ [7] := by
  constructor
  · norm_num [c9agg, c9tick1, c9tick2, c9tick3, TickBarAggregator.updates,
      TickBarAggregator.update, TickBarAggregator.mk0, BarBuilder.mk0,
      BarBuilder.update, BarBuilder.build, QuoteTick.extract_price,
      QuoteTick.extract_volume]
  · intro h
    have := List.head_eq_of_cons_eq h
    norm_num at this

/-- C9 (amended): updating the step-3 MID `TickBarAggregator` with the three
quote ticks emits exactly one bar to the handler, with open = 1.000025,
high = 1.000035, low = 1.000015, close = 1.000015 — each a MID price of
precision `max(bid precision, ask precision) + 1 = 6` — and volume = 6
(the sum of the ticks' bid and ask sizes). -/
theorem C9_tick_bar_aggregation :
    c9agg.bars =
      [{ open_price := ⟨1000025/1000000, 6⟩
         high := ⟨1000035/1000000, 6⟩
         low := ⟨1000015/1000000, 6⟩
         close := ⟨1000015/1000000, 6⟩
         volume := 6
         timestamp := 0 }] := by
  norm_num [c9agg, c9tick1, c9tick2, c9tick3, TickBarAggregator.updates,
    TickBarAggregator.update, TickBarAggregator.mk0, BarBuilder.mk0,
    BarBuilder.update, BarBuilder.build, QuoteTick.extract_price,
    QuoteTick.extract_volume]

/-- C8 (code bug): the claim says the constructor accepts every
`TimeInForce` value, failing only for GTD without an expire time.  The code
instead type-checks `time_in_force` against `datetime.datetime`
(`order.py` line 74) — a slip contradicting the parameter's `TimeInForce`
annotation and docstring — so EVERY non-`None` time in force raises
`TypeError`, here evaluated on an otherwise valid market order with an
expire time supplied. -/
theorem C8_time_in_force_always_rejected (tif : TimeInForce) :
    Order.init ⟨"AUD/USD", "FXCM"⟩ "O-1" "L" OrderSide.BUY OrderType.MARKET
        100000 0 none (some tif) (some 60)
      = .error (.typeError "The time_in_force must be of type datetime.") := by
  cases tif <;> rfl

/-! ## C2: position round trips -/

@[simp] theorem sumQty_nil : sumQty [] = 0 := rfl

@[simp] theorem sumQty_cons (e : OrderEvent) (l : List OrderEvent) :
    sumQty (e :: l) = e.filled_quantity + sumQty l := by
  simp [sumQty]

@[simp] theorem sumPQ_nil : sumPQ [] = 0 := rfl

@[simp] theorem sumPQ_cons (e : OrderEvent) (l : List OrderEvent) :
    sumPQ (e :: l) = e.average_price * e.filled_quantity + sumPQ l := by
  simp [sumPQ]

theorem sumQty_nonneg (l : List OrderEvent)
    (h : ∀ e ∈ l, 0 < e.filled_quantity) : 0 ≤ sumQty l := by
  induction l with
  | nil => simp
  | cons e l ih =>
    have h1 := h e (List.mem_cons_self e l)
    have h2 := ih fun x hx => h x (List.mem_cons_of_mem e hx)
    simp only [sumQty_cons]
    linarith

theorem sumQty_pos (l : List OrderEvent) (hne : l ≠ [])
    (h : ∀ e ∈ l, 0 < e.filled_quantity) : 0 < sumQty l := by
  cases l with
  | nil => exact absurd rfl hne
  | cons e l =>
    have h1 := h e (List.mem_cons_self e l)
    have h2 := sumQty_nonneg l fun x hx => h x (List.mem_cons_of_mem e hx)
    simp only [sumQty_cons]
    linarith

theorem dir_abs (s : OrderSide) : |s.dir| = 1 := by
  cases s <;> simp [OrderSide.dir]

theorem dir_ne_zero (s : OrderSide) : s.dir ≠ 0 := by
  cases s <;> norm_num [OrderSide.dir]

theorem dir_opposite (s : OrderSide) : s.opposite.dir = -s.dir := by
  cases s <;> simp [OrderSide.dir, OrderSide.opposite]

/-- One opening-leg fill (spec §4.3 rule 2): applied to a position whose net
quantity is `s.dir * N` with `N > 0` and whose average open price is `W/N`,
a fill on side `s` of quantity `q` moves the net to `s.dir * (N + q)` and
the average open price to `(W + price·q)/(N + q)`; the closing-side state is
untouched. -/
theorem applyFill_opening (p : Position) (e : OrderEvent) (s : OrderSide)
    (N W : ℚ) (hside : e.side = s) (hq : 0 < e.filled_quantity)
    (hrel : p.relative_quantity = s.dir * N) (hN : 0 < N)
    (havg : p.average_open_price = W / N) :
    (p.applyFill e).relative_quantity = s.dir * (N + e.filled_quantity)
    ∧ (p.applyFill e).average_open_price
        = (W + e.average_price * e.filled_quantity) / (N + e.filled_quantity)
    ∧ (p.applyFill e).entry_direction = p.entry_direction
    ∧ (p.applyFill e).closed_quantity = p.closed_quantity
    ∧ (p.applyFill e).average_close_price = p.average_close_price
    ∧ (p.applyFill e).closed_time = p.closed_time := by
  have hd : e.side.dir = s.dir := by rw [hside]
  have habs : |p.relative_quantity| = N := by
    rw [hrel, abs_mul, dir_abs, one_mul, abs_of_pos hN]
  have hcond : p.relative_quantity = 0
      ∨ (0 < p.relative_quantity ∧ 0 < e.side.dir * e.filled_quantity)
      ∨ (p.relative_quantity < 0 ∧ e.side.dir * e.filled_quantity < 0) := by
    rw [hrel, hd]
    cases s with
    | BUY =>
      refine Or.inr (Or.inl ⟨?_, ?_⟩) <;> simp [OrderSide.dir] <;> linarith
    | SELL =>
      refine Or.inr (Or.inr ⟨?_, ?_⟩) <;> simp [OrderSide.dir] <;> linarith
  have hnew0 : ¬(p.relative_quantity + e.side.dir * e.filled_quantity = 0) := by
    rw [hrel, hd]
    have heq : s.dir * N + s.dir * e.filled_quantity
        = s.dir * (N + e.filled_quantity) := by ring
    rw [heq]
    exact mul_ne_zero (dir_ne_zero s) (by linarith)
  have hNne : N ≠ 0 := ne_of_gt hN
  simp only [Position.applyFill, if_pos hcond]
  refine ⟨?_, ?_, trivial, trivial, trivial, if_neg hnew0⟩
  · rw [hrel, hd]; ring
  · rw [habs, havg]
    have hcan : N * (W / N) = W := by field_simp
    rw [hcan]; ring_nf

/-- One reducing-leg fill (spec §4.3 rule 3, no flip): applied to a position
of entry direction `s` whose net is `s.dir * S` with `0 < q ≤ S` closed so
far `C ≥ 0` at total closing value `V` and average open price `A`, a fill on
the opposite side of quantity `q` at price `price` moves the net to
`s.dir * (S - q)`, accumulates the closing average, and recomputes the
realized P&L as `±((V + price·q) - (C + q)·A)`. -/
theorem applyFill_reducing (p : Position) (e : OrderEvent) (s : OrderSide)
    (S C V A : ℚ) (hside : e.side = s.opposite) (hq : 0 < e.filled_quantity)
    (hqS : e.filled_quantity ≤ S) (hS : 0 < S)
    (hrel : p.relative_quantity = s.dir * S)
    (hentry : p.entry_direction = s)
    (hC : p.closed_quantity = C) (hCnn : 0 ≤ C)
    (hV : p.average_close_price * C = V)
    (hA : p.average_open_price = A) :
    (p.applyFill e).relative_quantity = s.dir * (S - e.filled_quantity)
    ∧ (p.applyFill e).entry_direction = s
    ∧ (p.applyFill e).average_open_price = A
    ∧ (p.applyFill e).closed_quantity = C + e.filled_quantity
    ∧ (p.applyFill e).average_close_price * (C + e.filled_quantity)
        = V + e.average_price * e.filled_quantity
    ∧ (p.applyFill e).realized_pnl
        = (if s = OrderSide.BUY
            then V + e.average_price * e.filled_quantity
              - (C + e.filled_quantity) * A
            else (C + e.filled_quantity) * A
              - (V + e.average_price * e.filled_quantity))
    ∧ (p.applyFill e).market_position
        = MarketPosition.ofNet (s.dir * (S - e.filled_quantity))
    ∧ (p.applyFill e).closed_time
        = (if S - e.filled_quantity = 0 then some e.timestamp
           else p.closed_time) := by
  have hd : e.side.dir = -s.dir := by rw [hside, dir_opposite]
  have habs : |p.relative_quantity| = S := by
    rw [hrel, abs_mul, dir_abs, one_mul, abs_of_pos hS]
  have hcond : ¬(p.relative_quantity = 0
      ∨ (0 < p.relative_quantity ∧ 0 < e.side.dir * e.filled_quantity)
      ∨ (p.relative_quantity < 0 ∧ e.side.dir * e.filled_quantity < 0)) := by
    rw [hrel, hd]
    intro h
    cases s with
    | BUY =>
      simp only [OrderSide.dir, one_mul, neg_mul] at h
      rcases h with h0 | ⟨h1, h2⟩ | ⟨h1, h2⟩
      · exact absurd h0 (ne_of_gt hS)
      · linarith
      · linarith
    | SELL =>
      simp only [OrderSide.dir, neg_neg, neg_mul, one_mul] at h
      rcases h with h0 | ⟨h1, h2⟩ | ⟨h1, h2⟩
      · linarith [hS]
      · linarith
      · linarith
  have hflip : ¬(|e.side.dir * e.filled_quantity| > |p.relative_quantity|) := by
    rw [habs, abs_mul, hd, abs_neg, dir_abs, one_mul, abs_of_pos hq]
    exact not_lt.mpr hqS
  have hmin : min |p.relative_quantity| e.filled_quantity
      = e.filled_quantity := by
    rw [habs]; exact min_eq_right hqS
  have hrelnew : p.relative_quantity + e.side.dir * e.filled_quantity
      = s.dir * (S - e.filled_quantity) := by
    rw [hrel, hd]; ring
  have hden : C + e.filled_quantity ≠ 0 := by positivity
  have havgclose :
      (p.closed_quantity * p.average_close_price
        + min |p.relative_quantity| e.filled_quantity * e.average_price)
        / (p.closed_quantity + min |p.relative_quantity| e.filled_quantity)
        * (C + e.filled_quantity)
      = V + e.average_price * e.filled_quantity := by
    rw [hmin, hC, div_mul_cancel₀ _ hden, ← hV]; ring
  have hifzero : (p.relative_quantity + e.side.dir * e.filled_quantity = 0)
      ↔ (S - e.filled_quantity = 0) := by
    rw [hrelnew]
    constructor
    · intro h
      rcases mul_eq_zero.mp h with h | h
      · exact absurd h (dir_ne_zero s)
      · exact h
    · intro h; rw [h, mul_zero]
  simp only [Position.applyFill, if_neg hcond, if_neg hflip]
  refine ⟨hrelnew, hentry, hA, ?_, havgclose, ?_, ?_, ?_⟩
  · rw [hmin, hC]
  · rw [hentry, hA, hmin, hC]
    have hexpand :
        ((C * p.average_close_price + e.filled_quantity * e.average_price)
          / (C + e.filled_quantity) - A) * (C + e.filled_quantity)
        = V + e.average_price * e.filled_quantity
          - (C + e.filled_quantity) * A := by
      rw [sub_mul, div_mul_cancel₀ _ hden, ← hV]; ring
    cases s with
    | BUY =>
      rw [if_pos rfl, if_pos rfl]
      exact hexpand
    | SELL =>
      rw [if_neg (by decide), if_neg (by decide)]
      ring_nf
      ring_nf at hexpand
      linarith
  · rw [hrelnew]
  · exact if_congr hifzero rfl rfl

@[simp] theorem applyFills_nil (p : Position) : Position.applyFills p [] = p :=
  rfl

theorem applyFills_cons (p : Position) (e : OrderEvent) (l : List OrderEvent) :
    Position.applyFills p (e :: l) = Position.applyFills (p.applyFill e) l :=
  rfl

theorem applyFills_append (p : Position) (l₁ l₂ : List OrderEvent) :
    Position.applyFills p (l₁ ++ l₂)
      = Position.applyFills (Position.applyFills p l₁) l₂ :=
  List.foldl_append _ _ _ _

/-- A run of opening-leg fills, all on the entry side `s` (spec §4.3 rule 2,
iterated): the net grows by the total quantity and the average open price
becomes the quantity-weighted mean; the closing-side state is untouched. -/
theorem applyFills_opening (s : OrderSide) (os : List OrderEvent) :
    ∀ (p : Position) (N W : ℚ),
    (∀ e ∈ os, e.side = s ∧ 0 < e.filled_quantity) →
    p.relative_quantity = s.dir * N → 0 < N →
    p.average_open_price = W / N →
    (Position.applyFills p os).relative_quantity = s.dir * (N + sumQty os)
    ∧ (Position.applyFills p os).average_open_price
        = (W + sumPQ os) / (N + sumQty os)
    ∧ (Position.applyFills p os).entry_direction = p.entry_direction
    ∧ (Position.applyFills p os).closed_quantity = p.closed_quantity
    ∧ (Position.applyFills p os).average_close_price = p.average_close_price
    ∧ (Position.applyFills p os).closed_time = p.closed_time := by
  induction os with
  | nil =>
    intro p N W _ hrel hN havg
    simp [hrel, havg]
  | cons e os ih =>
    intro p N W h hrel hN havg
    have he := h e (List.mem_cons_self e os)
    have hos : ∀ x ∈ os, x.side = s ∧ 0 < x.filled_quantity :=
      fun x hx => h x (List.mem_cons_of_mem e hx)
    have step := applyFill_opening p e s N W he.1 he.2 hrel hN havg
    have hN' : 0 < N + e.filled_quantity := by linarith [he.2]
    have hrec := ih (p.applyFill e) (N + e.filled_quantity)
      (W + e.average_price * e.filled_quantity) hos step.1 hN' step.2.1
    rw [applyFills_cons]
    refine ⟨?_, ?_, ?_, ?_, ?_, ?_⟩
    · rw [hrec.1, sumQty_cons]; ring
    · rw [hrec.2.1, sumPQ_cons, sumQty_cons]
      congr 1 <;> ring
    · rw [hrec.2.2.1, step.2.2.1]
    · rw [hrec.2.2.2.1, step.2.2.2.1]
    · rw [hrec.2.2.2.2.1, step.2.2.2.2.1]
    · rw [hrec.2.2.2.2.2, step.2.2.2.2.2]

/-- A run of reducing-leg fills on the side opposite the entry whose total
quantity equals the position's net (spec §4.3 rule 3, iterated): the
position goes flat, the closed time is the last fill's timestamp, and the
realized P&L is `±((V + Σ price·qty) − (C + Σ qty) · A)`. -/
theorem applyFills_reducing (s : OrderSide) (cs : List OrderEvent)
    (clast : OrderEvent) :
    ∀ (p : Position) (C V A : ℚ),
    (∀ e ∈ cs ++ [clast], e.side = s.opposite ∧ 0 < e.filled_quantity) →
    p.entry_direction = s →
    p.relative_quantity = s.dir * sumQty (cs ++ [clast]) →
    p.average_open_price = A →
    p.closed_quantity = C → 0 ≤ C →
    p.average_close_price * C = V →
    (Position.applyFills p (cs ++ [clast])).relative_quantity = 0
    ∧ (Position.applyFills p (cs ++ [clast])).market_position
        = MarketPosition.FLAT
    ∧ (Position.applyFills p (cs ++ [clast])).closed_time
        = some clast.timestamp
    ∧ (Position.applyFills p (cs ++ [clast])).realized_pnl
        = (if s = OrderSide.BUY
            then V + sumPQ (cs ++ [clast]) - (C + sumQty (cs ++ [clast])) * A
            else (C + sumQty (cs ++ [clast])) * A
              - (V + sumPQ (cs ++ [clast]))) := by
  induction cs with
  | nil =>
    intro p C V A h hentry hrel hA hC hCnn hV
    have he := h clast (by simp)
    have hq := he.2
    have hS : 0 < sumQty ([] ++ [clast]) := by simp; linarith
    have hqS : clast.filled_quantity ≤ sumQty ([] ++ [clast]) := by simp
    have step := applyFill_reducing p clast s (sumQty ([] ++ [clast])) C V A
      he.1 hq hqS hS hrel hentry hC hCnn hV hA
    have hz : sumQty ([] ++ [clast]) - clast.filled_quantity = 0 := by simp
    rw [List.nil_append, applyFills_cons, applyFills_nil] at *
    refine ⟨?_, ?_, ?_, ?_⟩
    · rw [step.1, hz, mul_zero]
    · rw [step.2.2.2.2.2.2.1, hz, mul_zero]
      simp [MarketPosition.ofNet]
    · rw [step.2.2.2.2.2.2.2, if_pos hz]
    · rw [step.2.2.2.2.2.1]
      split_ifs <;> simp
  | cons e cs ih =>
    intro p C V A h hentry hrel hA hC hCnn hV
    rw [List.cons_append] at h hrel ⊢
    have he := h e (List.mem_cons_self e _)
    have hrest : ∀ x ∈ cs ++ [clast], x.side = s.opposite ∧ 0 < x.filled_quantity :=
      fun x hx => h x (List.mem_cons_of_mem e hx)
    have hSpos' : 0 < sumQty (cs ++ [clast]) :=
      sumQty_pos _ (by simp) (fun x hx => (hrest x hx).2)
    have hqS : e.filled_quantity ≤ sumQty (e :: (cs ++ [clast])) := by
      rw [sumQty_cons]; linarith
    have hS : 0 < sumQty (e :: (cs ++ [clast])) := by
      rw [sumQty_cons]; linarith [he.2]
    have step := applyFill_reducing p e s (sumQty (e :: (cs ++ [clast]))) C V A
      he.1 he.2 hqS hS hrel hentry hC hCnn hV hA
    have hrel' : (p.applyFill e).relative_quantity
        = s.dir * sumQty (cs ++ [clast]) := by
      rw [step.1, sumQty_cons]; ring_nf
    have hrec := ih (p.applyFill e) (C + e.filled_quantity)
      (V + e.average_price * e.filled_quantity) A hrest step.2.1 hrel'
      step.2.2.1 step.2.2.2.1 (by linarith [he.2]) step.2.2.2.2.1
    rw [applyFills_cons]
    refine ⟨hrec.1, hrec.2.1, hrec.2.2.1, ?_⟩
    · rw [hrec.2.2.2, sumQty_cons, sumPQ_cons]
      split_ifs <;> ring

/-- C2 (counterexample): the claim quantifies over EVERY fill sequence whose
signed quantities sum to zero, but it fails on a flip: for
SELL 1 @ 1, BUY 2 @ 2, SELL 1 @ 3 (signed sum −1 + 2 − 1 = 0) the position
ends FLAT with realized_pnl = −1, while the claim's per-unit sum — one short
unit opened at 1 and closed at 2, one long unit opened at 2 and closed at 3
— is (1 − 2)·1 + (3 − 2)·1 = 0 (and under the alternative reading that signs
every unit by the position's first entry direction it is
(1 − 2)·1 + (2 − 3)·1 = −2); the spec's weighted-average bookkeeping mixes
the two trips, so realized_pnl matches neither. -/
theorem C2_counterexample :
    (OrderSide.SELL.dir * 1 + OrderSide.BUY.dir * 2 + OrderSide.SELL.dir * 1 : ℚ) = 0
    ∧ c2flip.market_position = MarketPosition.FLAT
    ∧ c2flip.realized_pnl = -1
    ∧ ((1 - 2) * 1 + (3 - 2) * 1 : ℚ) = 0
    ∧ ((1 - 2) * 1 + (2 - 3) * 1 : ℚ) = -2
    ∧ c2flip.realized_pnl ≠ (1 - 2) * 1 + (3 - 2) * 1
    ∧ c2flip.realized_pnl ≠ (1 - 2) * 1 + (2 - 3) * 1 := by
  norm_num [c2flip, mkFillEvent, Position.applyFills, Position.applyFill,
    Position.fromFill, OrderSide.dir, MarketPosition.ofNet, List.foldl]
  refine ⟨by decide, ?_, ?_⟩
  · rw [if_neg (by decide)]; norm_num
  · rw [if_neg (by decide)]; norm_num

/-- C2 (amended): for every fill sequence forming a single non-flipping
round trip — opening fills all on the entry side followed by reducing fills
all on the opposite side, every quantity positive, with signed quantities
summing to zero — the final position is FLAT, its closed time is the last
fill's timestamp, its realized P&L equals the sum over closed units of
(closing price − opening price)·quantity signed by the entry direction
(= `Σ price·qty` over closes minus over opens for a long entry, negated for
a short entry), and its unrealized P&L at any subsequent quote tick is
zero.  (For sequences that flip direction or reopen after reaching flat the
P&L clause fails, see the counterexample.) -/
theorem C2_round_trip (pid : String) (s : OrderSide) (o₀ : OrderEvent)
    (os cs : List OrderEvent) (clast : OrderEvent)
    (h₀s : o₀.side = s) (h₀q : 0 < o₀.filled_quantity)
    (hos : ∀ e ∈ os, e.side = s ∧ 0 < e.filled_quantity)
    (hcs : ∀ e ∈ cs ++ [clast], e.side = s.opposite ∧ 0 < e.filled_quantity)
    (hsum : sumQty (o₀ :: os) = sumQty (cs ++ [clast])) :
    (Position.applyFills (Position.fromFill pid o₀)
        (os ++ (cs ++ [clast]))).market_position = MarketPosition.FLAT
    ∧ (Position.applyFills (Position.fromFill pid o₀)
        (os ++ (cs ++ [clast]))).closed_time = some clast.timestamp
    ∧ (Position.applyFills (Position.fromFill pid o₀)
        (os ++ (cs ++ [clast]))).realized_pnl
        = (if s = OrderSide.BUY
            then sumPQ (cs ++ [clast]) - sumPQ (o₀ :: os)
            else sumPQ (o₀ :: os) - sumPQ (cs ++ [clast]))
    ∧ ∀ bid ask : ℚ,
        (Position.applyFills (Position.fromFill pid o₀)
          (os ++ (cs ++ [clast]))).unrealized_pnl bid ask = 0 := by
  have hrel0 : (Position.fromFill pid o₀).relative_quantity
      = s.dir * o₀.filled_quantity := by
    simp [Position.fromFill, h₀s]
  have havg0 : (Position.fromFill pid o₀).average_open_price
      = (o₀.average_price * o₀.filled_quantity) / o₀.filled_quantity := by
    simp [Position.fromFill]
    rw [mul_div_cancel_right₀ _ (ne_of_gt h₀q)]
  have opening := applyFills_opening s os (Position.fromFill pid o₀)
    o₀.filled_quantity (o₀.average_price * o₀.filled_quantity)
    hos hrel0 h₀q havg0
  have hQpos : 0 < o₀.filled_quantity + sumQty os := by
    have := sumQty_nonneg os fun x hx => (hos x hx).2
    linarith
  have hrel1 : (Position.applyFills (Position.fromFill pid o₀) os).relative_quantity
      = s.dir * sumQty (cs ++ [clast]) := by
    rw [opening.1, ← hsum, sumQty_cons]
  have hentry1 : (Position.applyFills (Position.fromFill pid o₀) os).entry_direction
      = s := by
    rw [opening.2.2.1]
    simp [Position.fromFill, h₀s]
  have hC1 : (Position.applyFills (Position.fromFill pid o₀) os).closed_quantity
      = 0 := by
    rw [opening.2.2.2.1]
    simp [Position.fromFill]
  have hV1 : (Position.applyFills (Position.fromFill pid o₀) os).average_close_price
      * 0 = 0 := mul_zero _
  have red := applyFills_reducing s cs clast
    (Position.applyFills (Position.fromFill pid o₀) os) 0 0
    ((o₀.average_price * o₀.filled_quantity + sumPQ os)
      / (o₀.filled_quantity + sumQty os))
    hcs hentry1 hrel1 opening.2.1 hC1 le_rfl hV1
  have hQA : sumQty (cs ++ [clast])
      * ((o₀.average_price * o₀.filled_quantity + sumPQ os)
          / (o₀.filled_quantity + sumQty os))
      = sumPQ (o₀ :: os) := by
    rw [← hsum, sumQty_cons, sumPQ_cons, mul_comm,
      div_mul_cancel₀ _ (ne_of_gt hQpos)]
  rw [applyFills_append]
  refine ⟨red.2.1, red.2.2.1, ?_, ?_⟩
  · rw [red.2.2.2]
    split_ifs with hb
    · rw [zero_add, zero_add, hQA]
    · rw [zero_add, zero_add, hQA]
  · intro bid ask
    simp [Position.unrealized_pnl, Position.unrealized_points, red.2.1]

/-- Witness for `C2_round_trip`: BUY 1 @ 1 then SELL 1 @ 1 at time 5. -/
theorem C2_round_trip_witness :
    (Position.applyFills (Position.fromFill "P-1" (mkFillEvent OrderSide.BUY 1 1 0))
        ([] ++ ([] ++ [mkFillEvent OrderSide.SELL 1 1 5]))).market_position
      = MarketPosition.FLAT
    ∧ (Position.applyFills (Position.fromFill "P-1" (mkFillEvent OrderSide.BUY 1 1 0))
        ([] ++ ([] ++ [mkFillEvent OrderSide.SELL 1 1 5]))).closed_time
      = some (mkFillEvent OrderSide.SELL 1 1 5).timestamp
    ∧ (Position.applyFills (Position.fromFill "P-1" (mkFillEvent OrderSide.BUY 1 1 0))
        ([] ++ ([] ++ [mkFillEvent OrderSide.SELL 1 1 5]))).realized_pnl
      = (if OrderSide.BUY = OrderSide.BUY
          then sumPQ ([] ++ [mkFillEvent OrderSide.SELL 1 1 5])
            - sumPQ [mkFillEvent OrderSide.BUY 1 1 0]
          else sumPQ [mkFillEvent OrderSide.BUY 1 1 0]
            - sumPQ ([] ++ [mkFillEvent OrderSide.SELL 1 1 5]))
    ∧ ∀ bid ask : ℚ,
        (Position.applyFills (Position.fromFill "P-1" (mkFillEvent OrderSide.BUY 1 1 0))
          ([] ++ ([] ++ [mkFillEvent OrderSide.SELL 1 1 5]))).unrealized_pnl bid ask
          = 0 :=
  C2_round_trip "P-1" OrderSide.BUY (mkFillEvent OrderSide.BUY 1 1 0) [] []
    (mkFillEvent OrderSide.SELL 1 1 5) rfl (by norm_num [mkFillEvent])
    (by simp)
    (by
      intro e he
      simp only [List.nil_append, List.mem_singleton] at he
      subst he
      exact ⟨rfl, by norm_num [mkFillEvent]⟩)
    (by norm_num [sumQty, mkFillEvent])

/-! ## C5: flatness of reachable engine states -/

theorem lookupKey_mem {β : Type} {k : String} {v : β} :
    ∀ {l : List (String × β)}, lookupKey k l = some v → (k, v) ∈ l := by
  intro l
  induction l with
  | nil => intro h; simp [lookupKey] at h
  | cons kv l ih =>
    intro h
    rw [lookupKey] at h
    split at h
    · rename_i heq
      cases h
      rw [← heq]
      exact List.mem_cons_self _ _
    · exact List.mem_cons_of_mem _ (ih h)

theorem lookupKey_replace_self {β : Type} (l : List (String × β)) (x : String)
    (v : β) :
    lookupKey x (l.map fun kv => if kv.1 = x then (x, v) else kv)
      = (lookupKey x l).map fun _ => v := by
  induction l with
  | nil => rfl
  | cons kv l ih =>
    by_cases h : kv.1 = x
    · rw [List.map_cons, if_pos h]
      simp [lookupKey, h]
    · rw [List.map_cons, if_neg h]
      simp [lookupKey, h, ih]

theorem lookupKey_replace_ne {β : Type} (l : List (String × β)) (x k : String)
    (v : β) (h : k ≠ x) :
    lookupKey k (l.map fun kv => if kv.1 = x then (x, v) else kv)
      = lookupKey k l := by
  induction l with
  | nil => rfl
  | cons kv l ih =>
    by_cases hx : kv.1 = x
    · rw [List.map_cons, if_pos hx]
      have hxk : ¬x = k := fun hc => h hc.symm
      simp [lookupKey, hxk, hx, ih]
    · rw [List.map_cons, if_neg hx]
      simp [lookupKey, ih]

theorem mem_insertId_self (k : String) (l : List String) : k ∈ insertId k l := by
  rw [insertId]
  split
  · assumption
  · exact List.mem_cons_self _ _

theorem mem_insertId_of_mem (k : String) {x : String} {l : List String}
    (h : x ∈ l) : x ∈ insertId k l := by
  rw [insertId]
  split
  · exact h
  · exact List.mem_cons_of_mem _ h

theorem eq_or_mem_of_mem_insertId {k x : String} {l : List String}
    (h : x ∈ insertId k l) : x = k ∨ x ∈ l := by
  rw [insertId] at h
  by_cases hk : k ∈ l
  · rw [if_pos hk] at h
    exact Or.inr h
  · rw [if_neg hk] at h
    rcases List.mem_cons.mp h with he | hm
    · exact Or.inl he
    · exact Or.inr hm

theorem nodup_insertId (k : String) {l : List String} (h : l.Nodup) :
    (insertId k l).Nodup := by
  rw [insertId]
  split
  · exact h
  · rename_i hk
    exact List.nodup_cons.mpr ⟨hk, h⟩

theorem dbPosInv_init : DbPosInv ExecDb.init := by
  refine ⟨?_, ?_, ?_, ?_, ?_⟩ <;> simp [ExecDb.init, lookupKey]

/-- `DbPosInv` depends only on the positions store and its two indices. -/
theorem DbPosInv_of_eq (db db' : ExecDb)
    (hpos : db'.positions = db.positions)
    (hidx : db'.index_position_strategy = db.index_position_strategy)
    (hopen : db'.index_positions_open = db.index_positions_open) :
    DbPosInv db → DbPosInv db' := by
  unfold DbPosInv
  rw [hpos, hidx, hopen]
  exact id

theorem update_order_posState (db : ExecDb) (o : Order) :
    (db.update_order o).positions = db.positions
    ∧ (db.update_order o).index_position_strategy = db.index_position_strategy
    ∧ (db.update_order o).index_positions_open = db.index_positions_open := by
  unfold ExecDb.update_order
  split_ifs <;> exact ⟨rfl, rfl, rfl⟩

theorem add_order_posState (db : ExecDb) (o : Order)
    (sid pid : String) (db' : ExecDb) (h : db.add_order o sid pid = .ok db') :
    db'.positions = db.positions
    ∧ db'.index_position_strategy = db.index_position_strategy
    ∧ db'.index_positions_open = db.index_positions_open := by
  unfold ExecDb.add_order at h
  split_ifs at h <;> cases h <;> exact ⟨rfl, rfl, rfl⟩

theorem DbPosInv_update_position (db : ExecDb) (p : Position)
    (hinv : DbPosInv db) : DbPosInv (db.update_position p) := by
  obtain ⟨inv1, inv2, inv3, inv4, inv5⟩ := hinv
  rw [ExecDb.update_position]
  split_ifs with hnone hflat
  · exact ⟨inv1, inv2, inv3, inv4, inv5⟩
  case _ =>
    obtain ⟨q, hq⟩ : ∃ q, lookupKey p.id db.positions = some q := by
      rcases hh : lookupKey p.id db.positions with _ | q
      · rw [hh] at hnone
        simp at hnone
      · exact ⟨q, rfl⟩
    -- FLAT case: rehome into the closed index
    refine ⟨?_, ?_, inv3.erase _, inv4, ?_⟩
    · intro pid hpid
      obtain ⟨hne, hmem⟩ := (inv3.mem_erase_iff).mp hpid
      obtain ⟨q', hq', hnf⟩ := inv1 pid hmem
      exact ⟨q', by rw [lookupKey_replace_ne _ _ _ _ hne]; exact hq', hnf⟩
    · intro pid q' hq' hnf
      by_cases hne : pid = p.id
      · subst hne
        rw [lookupKey_replace_self, hq] at hq'
        cases hq'
        exact absurd hflat hnf
      · rw [lookupKey_replace_ne _ _ _ _ hne] at hq'
        exact inv3.mem_erase_iff.mpr ⟨hne, inv2 pid q' hq' hnf⟩
    · intro pid sid hmem
      by_cases hne : pid = p.id
      · subst hne
        rw [lookupKey_replace_self, hq]
        rfl
      · rw [lookupKey_replace_ne _ _ _ _ hne]
        exact inv5 pid sid hmem
  -- non-FLAT case: rehome into the open index
  case _ =>
    obtain ⟨q, hq⟩ : ∃ q, lookupKey p.id db.positions = some q := by
      rcases hh : lookupKey p.id db.positions with _ | q
      · rw [hh] at hnone
        simp at hnone
      · exact ⟨q, rfl⟩
    refine ⟨?_, ?_, nodup_insertId _ inv3, inv4, ?_⟩
    · intro pid hpid
      by_cases hne : pid = p.id
      · subst hne
        exact ⟨p, by rw [lookupKey_replace_self, hq]; rfl, hflat⟩
      · rcases eq_or_mem_of_mem_insertId hpid with h | hmem
        · exact absurd h hne
        · obtain ⟨q', hq', hnf⟩ := inv1 pid hmem
          exact ⟨q', by rw [lookupKey_replace_ne _ _ _ _ hne]; exact hq', hnf⟩
    · intro pid q' hq' hnf
      by_cases hne : pid = p.id
      · subst hne
        exact mem_insertId_self _ _
      · rw [lookupKey_replace_ne _ _ _ _ hne] at hq'
        exact mem_insertId_of_mem _ (inv2 pid q' hq' hnf)
    · intro pid sid hmem
      by_cases hne : pid = p.id
      · subst hne
        rw [lookupKey_replace_self, hq]
        rfl
      · rw [lookupKey_replace_ne _ _ _ _ hne]
        exact inv5 pid sid hmem

theorem DbPosInv_add_position (db : ExecDb) (p : Position) (sid : String)
    (db' : ExecDb) (h : db.add_position p sid = .ok db')
    (hnf : p.market_position ≠ MarketPosition.FLAT)
    (hinv : DbPosInv db) : DbPosInv db' := by
  obtain ⟨inv1, inv2, inv3, inv4, inv5⟩ := hinv
  rw [ExecDb.add_position] at h
  split_ifs at h with hex
  have hnone : lookupKey p.id db.positions = none := by
    rcases hh : lookupKey p.id db.positions with _ | q
    · rfl
    · rw [hh] at hex
      simp at hex
  injection h with h
  subst h
  refine ⟨?_, ?_, nodup_insertId _ inv3, ?_, ?_⟩
  · intro pid hpid
    by_cases hpe : pid = p.id
    · subst hpe
      exact ⟨p, by simp [lookupKey], hnf⟩
    · rcases eq_or_mem_of_mem_insertId hpid with he | hmem
      · exact absurd he hpe
      · obtain ⟨q, hq, hqnf⟩ := inv1 pid hmem
        refine ⟨q, ?_, hqnf⟩
        simp only [lookupKey]
        rw [if_neg fun hc => hpe hc.symm]
        exact hq
  · intro pid q hq hqnf
    simp only [lookupKey] at hq
    by_cases hpe : p.id = pid
    · rw [← hpe]
      exact mem_insertId_self _ _
    · rw [if_neg hpe] at hq
      exact mem_insertId_of_mem _ (inv2 pid q hq hqnf)
  · intro pid sid' hmem
    rcases List.mem_cons.mp hmem with heq | hmem
    · injection heq with h1 h2
      subst h1
      subst h2
      simp [lookupKey]
    · by_cases hpe : p.id = pid
      · exfalso
        have hsome := inv5 pid sid' hmem
        rw [← hpe, hnone] at hsome
        simp at hsome
      · simp only [lookupKey]
        rw [if_neg hpe]
        exact inv4 pid sid' hmem
  · intro pid sid' hmem
    by_cases hpe : p.id = pid
    · simp only [lookupKey]
      rw [if_pos hpe]
      rfl
    · simp only [lookupKey]
      rw [if_neg hpe]
      rcases List.mem_cons.mp hmem with heq | hmem
      · injection heq with h1 h2
        exact absurd h1.symm hpe
      · exact inv5 pid sid' hmem

/-- A position created from a fill of positive quantity is never FLAT. -/
theorem fromFill_not_flat (pid : String) (e : OrderEvent)
    (hq : 0 < e.filled_quantity) :
    (Position.fromFill pid e).market_position ≠ MarketPosition.FLAT := by
  cases hs : e.side <;>
    simp [Position.fromFill, MarketPosition.ofNet, OrderSide.dir, hs] <;>
    split_ifs <;> simp_all

/-- Every reachable engine state satisfies the position-index coherence
invariant. -/
theorem reachable_DbPosInv (st : ExecEngine) (h : Reachable st) :
    DbPosInv st.db := by
  induction h with
  | init => exact dbPosInv_init
  | register sid _ ih => exact DbPosInv_of_eq _ _ rfl rfl rfl ih
  | deregister sid _ ih => exact DbPosInv_of_eq _ _ rfl rfl rfl ih
  | submit o sid pid _ ih =>
    rename_i st' _
    rw [ExecEngine.execute_submit_order]
    rcases hres : st'.db.add_order o sid pid with _ | db'
    · exact ih
    · obtain ⟨h1, h2, h3⟩ := add_order_posState _ _ _ _ _ hres
      exact DbPosInv_of_eq _ _ h1 h2 h3 ih
  | order_event e _ hfq ih =>
    rename_i st' _
    rw [ExecEngine.handle_order_event]
    split
    · exact ih
    rename_i o hgo
    dsimp only
    have ih1 : DbPosInv (st'.db.update_order (o.apply e)) := by
      obtain ⟨h1, h2, h3⟩ := update_order_posState st'.db (o.apply e)
      exact DbPosInv_of_eq _ _ h1 h2 h3 ih
    by_cases hf : ExecEngine.isFillKind e.kind = true
    · rw [if_pos hf]
      split
      · exact ih1
      rename_i pid hgp
      split
      · exact DbPosInv_update_position _ _ ih1
      · split
        · exact ih1
        rename_i sid hls
        split
        · rename_i db2 hadd
          exact DbPosInv_add_position _ _ _ _ hadd
            (fromFill_not_flat pid e (hfq hf)) ih1
        · exact ih1
    · rw [if_neg hf]
      exact ih1
  | reset _ ih => exact dbPosInv_init

/-- Over a coherent database, a strategy has no open positions exactly when
every position recorded for it is FLAT. -/
theorem strategy_flat_iff (db : ExecDb) (hinv : DbPosInv db) (s : String) :
    (db.get_positions_open s).isEmpty = true ↔
      ∀ p ∈ db.get_positions s, p.market_position = MarketPosition.FLAT := by
  obtain ⟨inv1, inv2, inv3, inv4, inv5⟩ := hinv
  constructor
  · intro hemp p hp
    rw [ExecDb.get_positions, List.mem_filterMap] at hp
    obtain ⟨kv, hkv, hif⟩ := hp
    by_cases hs2 : kv.2 = s
    · rw [if_pos hs2] at hif
      rw [ExecDb.get_position] at hif
      by_contra hnf
      have hmem := inv2 kv.1 p hif hnf
      have hlook : lookupKey kv.1 db.index_position_strategy = some s := by
        have hl := inv4 kv.1 kv.2 hkv
        rw [hs2] at hl
        exact hl
      have hin : kv.1 ∈ db.get_positions_open s := by
        rw [ExecDb.get_positions_open, List.mem_filter]
        exact ⟨hmem, by simp [hlook]⟩
      rw [List.isEmpty_iff] at hemp
      rw [hemp] at hin
      exact absurd hin (List.not_mem_nil _)
    · rw [if_neg hs2] at hif
      exact absurd hif (by simp)
  · intro hall
    rw [List.isEmpty_iff, List.eq_nil_iff_forall_not_mem]
    intro pid hpid
    rw [ExecDb.get_positions_open, List.mem_filter] at hpid
    obtain ⟨hopen, hdec⟩ := hpid
    have hlook : lookupKey pid db.index_position_strategy = some s := by
      simpa using hdec
    obtain ⟨p, hp, hnf⟩ := inv1 pid hopen
    have hmemidx : (pid, s) ∈ db.index_position_strategy := lookupKey_mem hlook
    have hpin : p ∈ db.get_positions s := by
      rw [ExecDb.get_positions, List.mem_filterMap]
      exact ⟨(pid, s), hmemidx, by simp [ExecDb.get_position, hp]⟩
    exact hnf (hall p hpin)

/-- Over a coherent database with no stored positions, every strategy's open
set is empty. -/
theorem no_positions_no_open (db : ExecDb) (hinv : DbPosInv db)
    (hpos : db.positions = []) (s : String) :
    (db.get_positions_open s).isEmpty = true := by
  rw [List.isEmpty_iff, List.eq_nil_iff_forall_not_mem]
  intro pid hpid
  rw [ExecDb.get_positions_open, List.mem_filter] at hpid
  obtain ⟨p, hp, _⟩ := hinv.1 pid hpid.1
  rw [hpos] at hp
  simp [lookupKey] at hp

/-- C5: for every reachable engine state and strategy id `s`:
`is_strategy_flat s` holds iff every position recorded for `s` is FLAT;
`is_flat` holds iff `is_strategy_flat` holds for every registered strategy;
and both hold when the database stores no positions or no strategy is
registered. -/
theorem C5_flatness (st : ExecEngine) (h : Reachable st) (s : String) :
    (st.is_strategy_flat s = true ↔
      ∀ p ∈ st.db.get_positions s, p.market_position = MarketPosition.FLAT)
    ∧ (st.is_flat = true ↔
      ∀ s' ∈ st.registered_strategies, st.is_strategy_flat s' = true)
    ∧ (st.db.positions = [] → st.is_strategy_flat s = true)
    ∧ (st.registered_strategies = [] → st.is_flat = true)
    ∧ (st.db.positions = [] → st.is_flat = true) := by
  have hinv := reachable_DbPosInv st h
  refine ⟨?_, ?_, ?_, ?_, ?_⟩
  · rw [ExecEngine.is_strategy_flat]
    exact strategy_flat_iff st.db hinv s
  · rw [ExecEngine.is_flat]
    simp [ExecEngine.registered_strategies, ExecEngine.is_strategy_flat,
      List.all_eq_true]
  · intro hpos
    rw [ExecEngine.is_strategy_flat]
    exact no_positions_no_open st.db hinv hpos s
  · intro hreg
    rw [ExecEngine.is_flat,
      show st.registered = [] from hreg]
    rfl
  · intro hpos
    rw [ExecEngine.is_flat, List.all_eq_true]
    intro s' _
    rw [ExecEngine.is_strategy_flat]
    exact no_positions_no_open st.db hinv hpos s'

/-- Witness for `C5_flatness` at the engine with strategy `S1` registered. -/
theorem C5_flatness_witness :
    ((ExecEngine.init.register_strategy "S1").is_strategy_flat "S1" = true ↔
      ∀ p ∈ (ExecEngine.init.register_strategy "S1").db.get_positions "S1",
        p.market_position = MarketPosition.FLAT)
    ∧ ((ExecEngine.init.register_strategy "S1").is_flat = true ↔
      ∀ s' ∈ (ExecEngine.init.register_strategy "S1").registered_strategies,
        (ExecEngine.init.register_strategy "S1").is_strategy_flat s' = true)
    ∧ ((ExecEngine.init.register_strategy "S1").db.positions = [] →
        (ExecEngine.init.register_strategy "S1").is_strategy_flat "S1" = true)
    ∧ ((ExecEngine.init.register_strategy "S1").registered_strategies = [] →
        (ExecEngine.init.register_strategy "S1").is_flat = true)
    ∧ ((ExecEngine.init.register_strategy "S1").db.positions = [] →
        (ExecEngine.init.register_strategy "S1").is_flat = true) :=
  C5_flatness (ExecEngine.init.register_strategy "S1")
    (Reachable.register "S1" Reachable.init) "S1"

end InvTrader
